import Mathlib

/-!
# Verification of the ecommerce checkout flow (`src/ecommerce.js`)

Shallow embedding of the JavaScript source. Conventions:

* JS numbers are modelled as `Int` (prices, quantities, weights, balances);
  none of the verified properties involve fractional arithmetic.
* Objects are immutable records; mutation becomes functional update.
* Product references (several cart items may alias one product object) are
  modelled by a store `Store : Nat → Product` indexed by product ids; a cart
  item holds a product id.
* `new Date()` in `PerishableProduct.isExpired` is modelled by an explicit
  `today : Int` parameter (dates as integers); `expiryDate < today` mirrors
  `this.expiryDate < today` in the source.
* `throw` becomes `Except Err` for the single operations, and the checkout
  procedure returns the state as left behind at the point of the throw
  (mutations already applied are kept, as in the source).
* `console.log` output is modelled structurally as a `List OutLine`; the
  numeric kilogram formatting `(totalWeight / 1000).toFixed(1)` is abstracted
  by carrying the total weight in grams.
-/

/-- The failure signals thrown by the source (each a JS `Error` with a
message; we keep the data the message is built from). -/
inductive Err where
  | emptyCart
  | expiredProduct (name : String)
  | outOfStock (name : String)
  | insufficientStock (name : String)
  | insufficientBalance (required available : Int)
  deriving DecidableEq

/-- The three classes of the product hierarchy: plain `Product`,
`PerishableProduct` (expiry date plus weight, the weight defaulting to 0 in
the source constructor) and `ShippableProduct` (weight). -/
inductive ProductKind where
  | plain
  | perishable (expiryDate : Int) (weight : Int)
  | shippable (weight : Int)
  deriving DecidableEq

/-- A product: `name`, `price`, `quantity` on hand, plus the subclass data. -/
structure Product where
  name : String
  price : Int
  quantity : Int
  kind : ProductKind
  deriving DecidableEq

/-- Source `isExpired()`: `false` for plain and shippable products; for perishable
products, `expiryDate < today` (source line 44). -/
def Product.isExpired (p : Product) (today : Int) : Bool :=
  match p.kind with
  | ProductKind.perishable expiryDate _ => expiryDate < today
  | _ => false

/-- Source `isShippable()`: `true` exactly for perishable and shippable products. -/
def Product.isShippable (p : Product) : Bool :=
  match p.kind with
  | ProductKind.plain => false
  | _ => true

/-- Source `getWeight()`: 0 for a plain product, the stored weight otherwise. -/
def Product.getWeight (p : Product) : Int :=
  match p.kind with
  | ProductKind.plain => 0
  | ProductKind.perishable _ w => w
  | ProductKind.shippable w => w

/-- Source `reduceQuantity(qty)` (source lines 27–32): throws `OutOfStock` when
`this.quantity < qty`, otherwise decrements the stock by `qty`. -/
def Product.reduceQuantity (p : Product) (qty : Int) : Except Err Product :=
  if p.quantity < qty then
    Except.error (Err.outOfStock p.name)
  else
    Except.ok { p with quantity := p.quantity - qty }

/-- The mutable heap of product objects: cart items alias products through
their id, as JS cart items alias product objects through references. -/
def Store : Type := Nat → Product

/-- Functional update of one product object in the store. -/
def Store.update (s : Store) (pid : Nat) (p : Product) : Store :=
  fun i => if i = pid then p else s i

/-- A `CartItem`: a product reference paired with the requested quantity. -/
structure CartItem where
  productId : Nat
  quantity : Int
  deriving DecidableEq

/-- Source `CartItem.getTotalPrice()`: `product.price * quantity`. -/
def CartItem.getTotalPrice (s : Store) (it : CartItem) : Int :=
  (s it.productId).price * it.quantity

/-- Source `CartItem.getWeight()`: `product.getWeight() * quantity`. -/
def CartItem.getWeight (s : Store) (it : CartItem) : Int :=
  (s it.productId).getWeight * it.quantity

/-- Source `CartItem.isShippable()` delegates to the product. -/
def CartItem.isShippable (s : Store) (it : CartItem) : Bool :=
  (s it.productId).isShippable

/-- Source `CartItem.isExpired()` delegates to the product. -/
def CartItem.isExpired (s : Store) (it : CartItem) (today : Int) : Bool :=
  (s it.productId).isExpired today

/-- A `Cart`: the ordered list of items, insertion order preserved. -/
structure Cart where
  items : List CartItem
  deriving DecidableEq

/-- Source `Cart.add(product, quantity)` (source lines 104–110): throws
`InsufficientStock` when `quantity > product.quantity`, otherwise pushes a
new `CartItem`.  The store is read, never written. -/
def Cart.add (s : Store) (cart : Cart) (pid : Nat) (quantity : Int) :
    Except Err Cart :=
  if (s pid).quantity < quantity then
    Except.error (Err.insufficientStock (s pid).name)
  else
    Except.ok ⟨cart.items ++ [⟨pid, quantity⟩]⟩

/-- Source `Cart.isEmpty()`: `items.length === 0`. -/
def Cart.isEmpty (cart : Cart) : Bool :=
  cart.items.length == 0

/-- Source `Cart.getSubtotal()`: `reduce((sum, item) => sum + item.getTotalPrice(), 0)`. -/
def Cart.getSubtotal (s : Store) (cart : Cart) : Int :=
  cart.items.foldl (fun sum it => sum + CartItem.getTotalPrice s it) 0

/-- Source `Cart.getShippableItems()`: `items.filter(item => item.isShippable())`. -/
def Cart.getShippableItems (s : Store) (cart : Cart) : List CartItem :=
  cart.items.filter (fun it => CartItem.isShippable s it)

/-- Source `Cart.getTotalWeight()`: fold of `getWeight` over the shippable items. -/
def Cart.getTotalWeight (s : Store) (cart : Cart) : Int :=
  (Cart.getShippableItems s cart).foldl (fun total it => total + CartItem.getWeight s it) 0

/-- A `Customer`: name and balance. -/
structure Customer where
  name : String
  balance : Int
  deriving DecidableEq

/-- Source `Customer.pay(amount)` (source lines 139–144): throws
`InsufficientBalance` when `balance < amount`, otherwise debits. -/
def Customer.pay (c : Customer) (amount : Int) : Except Err Customer :=
  if c.balance < amount then
    Except.error (Err.insufficientBalance amount c.balance)
  else
    Except.ok { c with balance := c.balance - amount }

/-- One line of console output, kept structurally (the data each
`console.log` interpolates). -/
inductive OutLine where
  | shipmentHeader
  | shipmentItem (qty : Int) (name : String) (weightGrams : Int)
  | shipmentTotal (totalWeightGrams : Int)
  | receiptHeader
  | receiptItem (qty : Int) (name : String) (lineTotal : Int)
  | separator
  | subtotalLine (subtotal : Int)
  | shippingLine (fee : Int)
  | amountLine (total : Int)
  | balanceLine (balance : Int)
  deriving DecidableEq

/-- Source `ShippingService.ship(items)` (source lines 152–161): header, one line
per item, then the total weight line (grams carried; the `/1000` kilogram
formatting is presentation only). -/
def ShippingService.ship (s : Store) (items : List CartItem) : List OutLine :=
  OutLine.shipmentHeader ::
    items.map (fun it =>
      OutLine.shipmentItem it.quantity (s it.productId).name (CartItem.getWeight s it))
    ++ [OutLine.shipmentTotal (items.foldl (fun sum it => sum + CartItem.getWeight s it) 0)]

/-- The receipt block printed at the end of `checkout` (source lines 189–197). -/
def receiptOutput (s : Store) (cart : Cart) (subtotal shippingFee total : Int)
    (c : Customer) : List OutLine :=
  OutLine.receiptHeader ::
    cart.items.map (fun it =>
      OutLine.receiptItem it.quantity (s it.productId).name (CartItem.getTotalPrice s it))
    ++ [OutLine.separator, OutLine.subtotalLine subtotal, OutLine.shippingLine shippingFee,
        OutLine.amountLine total, OutLine.balanceLine c.balance]

/-- The expiry-check-and-stock-decrement loop of `checkout` (source lines
169–174): for each item in cart order, throw `ExpiredProduct` if the item's
product is expired, else `reduceQuantity`.  Returns the store as left behind
at the throw (earlier decrements are kept) together with the error, if any. -/
def processItems (today : Int) (s : Store) : List CartItem → Store × Option Err
  | [] => (s, none)
  | it :: rest =>
    let p := s it.productId
    if p.isExpired today then
      (s, some (Err.expiredProduct p.name))
    else
      match p.reduceQuantity it.quantity with
      | Except.error e => (s, some e)
      | Except.ok p2 => processItems today (Store.update s it.productId p2) rest

/-- The state and output left behind by a `checkout` call: the product store,
the customer, the console output emitted, and the thrown error if any. -/
structure CheckoutResult where
  store : Store
  customer : Customer
  output : List OutLine
  error : Option Err

/-- Source `checkout(customer, cart)` (source lines 164–198), step by step:
empty-cart check, expiry/stock loop, subtotal, weight-based shipping fee,
payment, conditional shipment notice, receipt.  On a throw the state already
mutated is kept and the remaining steps are skipped, as in the source. -/
def checkout (today : Int) (customer : Customer) (cart : Cart) (s : Store) :
    CheckoutResult :=
  if cart.isEmpty then
    ⟨s, customer, [], some Err.emptyCart⟩
  else
    match processItems today s cart.items with
    | (s2, some e) => ⟨s2, customer, [], some e⟩
    | (s2, none) =>
      let subtotal := Cart.getSubtotal s2 cart
      let shippingFee : Int := if Cart.getTotalWeight s2 cart > 0 then 30 else 0
      let total := subtotal + shippingFee
      match customer.pay total with
      | Except.error e => ⟨s2, customer, [], some e⟩
      | Except.ok customer2 =>
        let shippableItems := Cart.getShippableItems s2 cart
        let shipOut :=
          if shippableItems.length > 0 then ShippingService.ship s2 shippableItems else []
        ⟨s2, customer2,
          shipOut ++ receiptOutput s2 cart subtotal shippingFee total customer2, none⟩

/-- The amount `checkout` charges, computed over a given store:
subtotal plus the weight-based shipping fee. -/
def checkoutTotal (s : Store) (cart : Cart) : Int :=
  Cart.getSubtotal s cart + (if Cart.getTotalWeight s cart > 0 then 30 else 0)

/-! ## Concrete fixtures (used by witnesses) -/

/-- A fresh perishable product (expiry day 20, weight 200g). -/
def cheese : Product := ⟨"Cheese", 100, 5, ProductKind.perishable 20 200⟩

/-- A perishable product already expired at day 10 (expiry day 5). -/
def oldBiscuits : Product := ⟨"Biscuits", 150, 2, ProductKind.perishable 5 700⟩

/-- A shippable product. -/
def tv : Product := ⟨"TV", 300, 3, ProductKind.shippable 10000⟩

/-- A plain product: no shipping, no expiry. -/
def scratchCard : Product := ⟨"Scratch Card", 50, 10, ProductKind.plain⟩

/-- A fresh perishable product built with the source constructor's default
`weight = 0`: shippable, yet contributing no weight. -/
def eggs : Product := ⟨"Eggs", 40, 6, ProductKind.perishable 30 0⟩

/-- A concrete product store: ids 0–4. -/
def demoStore : Store := fun i =>
  if i = 0 then cheese
  else if i = 1 then oldBiscuits
  else if i = 2 then tv
  else if i = 3 then eggs
  else scratchCard

/-! ## Helper lemmas -/

/-- Folding `+ f x` over a list starting from `n` is `n` plus the sum of the
mapped list. -/
theorem foldl_add_eq {α : Type} (f : α → Int) (l : List α) (n : Int) :
    l.foldl (fun a x => a + f x) n = n + (l.map f).sum := by
  induction l generalizing n with
  | nil => simp
  | cons x xs ih => simp [ih]; ring

/-- Lemma: `getSubtotal` as a sum over the mapped item list. -/
theorem getSubtotal_eq_sum (s : Store) (cart : Cart) :
    Cart.getSubtotal s cart = (cart.items.map (CartItem.getTotalPrice s)).sum := by
  unfold Cart.getSubtotal
  rw [foldl_add_eq]
  simp

/-- Lemma: `getTotalWeight` as a sum over the mapped shippable item list. -/
theorem getTotalWeight_eq_sum (s : Store) (cart : Cart) :
    Cart.getTotalWeight s cart =
      ((cart.items.filter (fun it => CartItem.isShippable s it)).map (CartItem.getWeight s)).sum := by
  unfold Cart.getTotalWeight Cart.getShippableItems
  rw [foldl_add_eq]
  simp

/-- A nonempty item list makes `Cart.isEmpty` false. -/
theorem isEmpty_false (cart : Cart) (h : cart.items ≠ []) : cart.isEmpty = false := by
  unfold Cart.isEmpty
  cases hi : cart.items with
  | nil => exact absurd hi h
  | cons a l => simp

/-- The stock-decrement loop changes only `quantity`: name, price and the
subclass data of every product in the store are preserved, whether the loop
ends successfully or on a throw. -/
theorem processItems_preserves (today : Int) (items : List CartItem) (s : Store) (pid : Nat) :
    ((processItems today s items).1 pid).name = (s pid).name ∧
    ((processItems today s items).1 pid).price = (s pid).price ∧
    ((processItems today s items).1 pid).kind = (s pid).kind := by
  induction items generalizing s with
  | nil => exact ⟨rfl, rfl, rfl⟩
  | cons it rest ih =>
    by_cases he : (s it.productId).isExpired today = true
    · simp [processItems, he]
    · by_cases hq : (s it.productId).quantity < it.quantity
      · simp [processItems, he, Product.reduceQuantity, hq]
      · have hstep : processItems today s (it :: rest) =
            processItems today (Store.update s it.productId
              { s it.productId with quantity := (s it.productId).quantity - it.quantity }) rest := by
          simp [processItems, he, Product.reduceQuantity, hq]
        rw [hstep]
        obtain ⟨hn, hp, hk⟩ := ih (Store.update s it.productId
          { s it.productId with quantity := (s it.productId).quantity - it.quantity })
        rw [hn, hp, hk]
        by_cases hpp : pid = it.productId <;> simp [Store.update, hpp]

/-- Appending onto a successfully processed prefix continues from the
prefix's final store. -/
theorem processItems_append_ok (today : Int) (l1 l2 : List CartItem) (s s2 : Store)
    (h : processItems today s l1 = (s2, none)) :
    processItems today s (l1 ++ l2) = processItems today s2 l2 := by
  induction l1 generalizing s with
  | nil =>
    simp only [processItems, Prod.mk.injEq] at h
    rw [List.nil_append, h.1]
  | cons it rest ih =>
    by_cases he : (s it.productId).isExpired today = true
    · simp [processItems, he] at h
    · by_cases hq : (s it.productId).quantity < it.quantity
      · simp [processItems, he, Product.reduceQuantity, hq] at h
      · have hred : processItems today s (it :: rest) =
            processItems today (Store.update s it.productId
              { s it.productId with quantity := (s it.productId).quantity - it.quantity }) rest := by
          simp [processItems, he, Product.reduceQuantity, hq]
        have hred2 : processItems today s ((it :: rest) ++ l2) =
            processItems today (Store.update s it.productId
              { s it.productId with quantity := (s it.productId).quantity - it.quantity })
              (rest ++ l2) := by
          simp [processItems, he, Product.reduceQuantity, hq]
        rw [hred] at h
        rw [hred2, ih _ h]

/-- Success of the stock-decrement loop with pairwise distinct product
references: no error, each item's product loses exactly the item quantity,
and every other product object is untouched. -/
theorem processItems_ok (today : Int) (items : List CartItem) (s : Store)
    (hnodup : (items.map CartItem.productId).Nodup)
    (hok : ∀ it ∈ items, (s it.productId).isExpired today = false ∧
      it.quantity ≤ (s it.productId).quantity) :
    (processItems today s items).2 = none ∧
    (∀ it ∈ items, ((processItems today s items).1 it.productId).quantity =
      (s it.productId).quantity - it.quantity) ∧
    (∀ pid, pid ∉ items.map CartItem.productId → (processItems today s items).1 pid = s pid) := by
  induction items generalizing s with
  | nil => exact ⟨rfl, by simp, fun pid _ => rfl⟩
  | cons it rest ih =>
    obtain ⟨hexp, hqty⟩ := hok it (by simp)
    have hnr : (rest.map CartItem.productId).Nodup := by
      simp only [List.map_cons, List.nodup_cons] at hnodup
      exact hnodup.2
    have hni : it.productId ∉ rest.map CartItem.productId := by
      simp only [List.map_cons, List.nodup_cons] at hnodup
      exact hnodup.1
    have hstep : ¬ (s it.productId).quantity < it.quantity := not_lt.mpr hqty
    have hred : processItems today s (it :: rest) =
        processItems today (Store.update s it.productId
          { s it.productId with quantity := (s it.productId).quantity - it.quantity }) rest := by
      simp [processItems, hexp, Product.reduceQuantity, hstep]
    have hrest : ∀ x ∈ rest, ((Store.update s it.productId
        { s it.productId with quantity := (s it.productId).quantity - it.quantity })
          x.productId).isExpired today = false ∧
        x.quantity ≤ ((Store.update s it.productId
          { s it.productId with quantity := (s it.productId).quantity - it.quantity })
            x.productId).quantity := by
      intro x hx
      have hxne : x.productId ≠ it.productId := by
        intro hcontra
        exact hni (hcontra ▸ List.mem_map_of_mem CartItem.productId hx)
      have heq : (Store.update s it.productId
          { s it.productId with quantity := (s it.productId).quantity - it.quantity })
            x.productId = s x.productId := by
        simp [Store.update, hxne]
      rw [heq]
      exact hok x (by simp [hx])
    obtain ⟨ih1, ih2, ih3⟩ := ih _ hnr hrest
    refine ⟨by rw [hred]; exact ih1, ?_, ?_⟩
    · intro x hx
      rcases List.mem_cons.mp hx with hx1 | hx2
      · subst hx1
        rw [hred, ih3 x.productId hni]
        simp [Store.update]
      · rw [hred, ih2 x hx2]
        have hxne : x.productId ≠ it.productId := by
          intro hcontra
          exact hni (hcontra ▸ List.mem_map_of_mem CartItem.productId hx2)
        simp [Store.update, hxne]
    · intro pid hpid
      simp only [List.map_cons, List.mem_cons, not_or] at hpid
      rw [hred, ih3 pid hpid.2]
      simp [Store.update, hpid.1]

/-- With nonnegative requested quantities, the loop never increases any
product's stock (also when it stops on a throw). -/
theorem processItems_quantity_le (today : Int) (items : List CartItem) (s : Store) (pid : Nat)
    (hq : ∀ it ∈ items, 0 ≤ it.quantity) :
    ((processItems today s items).1 pid).quantity ≤ (s pid).quantity := by
  induction items generalizing s with
  | nil => exact le_refl _
  | cons it rest ih =>
    by_cases he : (s it.productId).isExpired today = true
    · simp [processItems, he]
    · by_cases hlt : (s it.productId).quantity < it.quantity
      · simp [processItems, he, Product.reduceQuantity, hlt]
      · have hred : processItems today s (it :: rest) =
            processItems today (Store.update s it.productId
              { s it.productId with quantity := (s it.productId).quantity - it.quantity }) rest := by
          simp [processItems, he, Product.reduceQuantity, hlt]
        rw [hred]
        refine le_trans (ih _ (fun x hx => hq x (by simp [hx]))) ?_
        by_cases hpp : pid = it.productId
        · subst hpp
          simp only [Store.update, if_pos]
          have h0 : 0 ≤ it.quantity := hq it (by simp)
          simp
          omega
        · simp [Store.update, hpp]

/-- The loop keeps a nonnegative stock nonnegative: the guard in
`reduceQuantity` fails before the subtraction could go below zero. -/
theorem processItems_quantity_nonneg (today : Int) (items : List CartItem) (s : Store) (pid : Nat)
    (hpid : 0 ≤ (s pid).quantity) :
    0 ≤ ((processItems today s items).1 pid).quantity := by
  induction items generalizing s with
  | nil => exact hpid
  | cons it rest ih =>
    by_cases he : (s it.productId).isExpired today = true
    · simpa [processItems, he] using hpid
    · by_cases hlt : (s it.productId).quantity < it.quantity
      · simpa [processItems, he, Product.reduceQuantity, hlt] using hpid
      · have hred : processItems today s (it :: rest) =
            processItems today (Store.update s it.productId
              { s it.productId with quantity := (s it.productId).quantity - it.quantity }) rest := by
          simp [processItems, he, Product.reduceQuantity, hlt]
        rw [hred]
        apply ih
        by_cases hpp : pid = it.productId
        · subst hpp
          simp only [Store.update, if_pos]
          simp
          omega
        · simpa [Store.update, hpp] using hpid

/-- Whatever branch `checkout` takes, the store it returns is the store the
stock-decrement loop left behind (on an empty cart the loop is the identity). -/
theorem checkout_store_eq (today : Int) (c : Customer) (cart : Cart) (s : Store) :
    (checkout today c cart s).store = (processItems today s cart.items).1 := by
  unfold checkout
  split
  · rename_i he
    have hi : cart.items = [] := by
      rcases hl : cart.items with _ | ⟨a, l⟩
      · rfl
      · rw [Cart.isEmpty, hl] at he
        simp at he
    rw [hi]
    rfl
  · split
    · rename_i s2 e hp
      rw [hp]
    · rename_i s2 hp
      rw [hp]
      dsimp only
      repeat' split
      all_goals rfl

/-- Lemma: `isExpired` depends only on the subclass data. -/
theorem isExpired_congr (p q : Product) (today : Int) (h : p.kind = q.kind) :
    p.isExpired today = q.isExpired today := by
  unfold Product.isExpired
  rw [h]

/-- Lemma: `isShippable` depends only on the subclass data. -/
theorem isShippable_congr (p q : Product) (h : p.kind = q.kind) :
    p.isShippable = q.isShippable := by
  unfold Product.isShippable
  rw [h]

/-- Lemma: `getWeight` depends only on the subclass data. -/
theorem getWeight_congr (p q : Product) (h : p.kind = q.kind) :
    p.getWeight = q.getWeight := by
  unfold Product.getWeight
  rw [h]

/-- Two stores with the same prices give every cart the same subtotal. -/
theorem getSubtotal_congr (s1 s2 : Store) (cart : Cart)
    (h : ∀ pid, (s1 pid).price = (s2 pid).price) :
    Cart.getSubtotal s1 cart = Cart.getSubtotal s2 cart := by
  rw [getSubtotal_eq_sum, getSubtotal_eq_sum]
  congr 1
  apply List.map_congr_left
  intro it _
  unfold CartItem.getTotalPrice
  rw [h it.productId]

/-- Two stores with the same subclass data give every cart the same
shippable sublist. -/
theorem getShippableItems_congr (s1 s2 : Store) (cart : Cart)
    (h : ∀ pid, (s1 pid).kind = (s2 pid).kind) :
    Cart.getShippableItems s1 cart = Cart.getShippableItems s2 cart := by
  unfold Cart.getShippableItems
  apply List.filter_congr
  intro it _
  unfold CartItem.isShippable
  rw [isShippable_congr _ _ (h it.productId)]

/-- Two stores with the same subclass data give every cart the same total
shippable weight. -/
theorem getTotalWeight_congr (s1 s2 : Store) (cart : Cart)
    (h : ∀ pid, (s1 pid).kind = (s2 pid).kind) :
    Cart.getTotalWeight s1 cart = Cart.getTotalWeight s2 cart := by
  rw [getTotalWeight_eq_sum, getTotalWeight_eq_sum]
  have hf : cart.items.filter (fun it => CartItem.isShippable s1 it) =
      cart.items.filter (fun it => CartItem.isShippable s2 it) := by
    apply List.filter_congr
    intro it _
    unfold CartItem.isShippable
    rw [isShippable_congr _ _ (h it.productId)]
  rw [hf]
  congr 1
  apply List.map_congr_left
  intro it _
  unfold CartItem.getWeight
  rw [getWeight_congr _ _ (h it.productId)]

/-- Two stores with the same prices and subclass data charge every cart the
same checkout total. -/
theorem checkoutTotal_congr (s1 s2 : Store) (cart : Cart)
    (hprice : ∀ pid, (s1 pid).price = (s2 pid).price)
    (hkind : ∀ pid, (s1 pid).kind = (s2 pid).kind) :
    checkoutTotal s1 cart = checkoutTotal s2 cart := by
  unfold checkoutTotal
  rw [getSubtotal_congr s1 s2 cart hprice, getTotalWeight_congr s1 s2 cart hkind]

/-- On a nonempty cart whose stock loop succeeds, `checkout` is the payment,
shipping and receipt steps run over the loop's final store. -/
theorem checkout_success_eq (today : Int) (c : Customer) (cart : Cart) (s s2 : Store)
    (hne : cart.items ≠ []) (hp : processItems today s cart.items = (s2, none)) :
    checkout today c cart s =
      (match Customer.pay c (Cart.getSubtotal s2 cart +
          (if Cart.getTotalWeight s2 cart > 0 then 30 else 0)) with
       | Except.error e => ⟨s2, c, [], some e⟩
       | Except.ok c2 =>
         ⟨s2, c2,
          (if (Cart.getShippableItems s2 cart).length > 0 then
             ShippingService.ship s2 (Cart.getShippableItems s2 cart) else []) ++
            receiptOutput s2 cart (Cart.getSubtotal s2 cart)
              (if Cart.getTotalWeight s2 cart > 0 then 30 else 0)
              (Cart.getSubtotal s2 cart +
                (if Cart.getTotalWeight s2 cart > 0 then 30 else 0)) c2,
          none⟩) := by
  unfold checkout
  rw [isEmpty_false cart hne, hp]
  rfl

/-- On a nonempty cart whose stock loop throws, `checkout` stops there:
the partially mutated store is kept, no payment, no output. -/
theorem checkout_err_eq (today : Int) (c : Customer) (cart : Cart) (s s2 : Store) (e : Err)
    (hne : cart.items ≠ []) (hp : processItems today s cart.items = (s2, some e)) :
    checkout today c cart s = ⟨s2, c, [], some e⟩ := by
  unfold checkout
  rw [isEmpty_false cart hne, hp]
  rfl

/-- The shipment header never occurs in the receipt block. -/
theorem shipmentHeader_not_mem_receipt (s : Store) (cart : Cart)
    (subtotal fee total : Int) (c : Customer) :
    OutLine.shipmentHeader ∉ receiptOutput s cart subtotal fee total c := by
  simp [receiptOutput]

/-! ## Claim theorems -/

/-- C4: for every customer and every empty cart, `checkout` fails with
`EmptyCart` and has no side effects: the store is returned untouched, the
customer's balance is unchanged, and no shipment or receipt output is
produced. -/
theorem checkout_empty_cart (today : Int) (c : Customer) (cart : Cart) (s : Store)
    (he : cart.items = []) :
    checkout today c cart s = ⟨s, c, [], some Err.emptyCart⟩ := by
  rcases cart with ⟨items⟩
  simp only at he
  subst he
  rfl

/-- Witness for C4 at a concrete empty cart. -/
theorem checkout_empty_cart_witness :
    (Cart.mk []).items = [] ∧
    checkout 10 ⟨"Ali", 1000⟩ ⟨[]⟩ demoStore =
      ⟨demoStore, ⟨"Ali", 1000⟩, [], some Err.emptyCart⟩ :=
  ⟨rfl, checkout_empty_cart 10 ⟨"Ali", 1000⟩ ⟨[]⟩ demoStore rfl⟩

/-- C5: `reduceQuantity(q)` fails with `OutOfStock` exactly when `q` exceeds
the current quantity-on-hand (the product is then left untouched — in this
pure embedding a failing call returns no updated product at all), and
otherwise decrements the quantity by `q`, changing no other field. -/
theorem reduceQuantity_spec (p : Product) (q : Int) :
    (p.reduceQuantity q = Except.error (Err.outOfStock p.name) ↔ p.quantity < q) ∧
    (q ≤ p.quantity →
      p.reduceQuantity q = Except.ok ⟨p.name, p.price, p.quantity - q, p.kind⟩) := by
  by_cases h : p.quantity < q
  · refine ⟨by simp [Product.reduceQuantity, h], fun hle => absurd h (not_lt.mpr hle)⟩
  · refine ⟨?_, fun _ => by simp [Product.reduceQuantity, h]⟩
    simp [Product.reduceQuantity, h]

/-- Witness for C5: both sides of the specification at concrete products. -/
theorem reduceQuantity_spec_witness :
    (2 : Int) ≤ cheese.quantity ∧
    cheese.reduceQuantity 2 =
      Except.ok ⟨cheese.name, cheese.price, cheese.quantity - 2, cheese.kind⟩ ∧
    (tv.reduceQuantity 4 = Except.error (Err.outOfStock tv.name) ↔ tv.quantity < 4) :=
  ⟨by decide, (reduceQuantity_spec cheese 2).2 (by decide), (reduceQuantity_spec tv 4).1⟩

/-- C8: for every store and cart, `getSubtotal()` is the sum over all cart
items — shippable or not, expired or not — of the product's price times the
requested quantity.  (The query is pure: it is a function of the store and
cart alone.) -/
theorem getSubtotal_spec (s : Store) (cart : Cart) :
    Cart.getSubtotal s cart =
      (cart.items.map (fun it => (s it.productId).price * it.quantity)).sum := by
  rw [getSubtotal_eq_sum]
  rfl

/-- C9: for every store and cart, `getTotalWeight()` is the sum over exactly
the cart items whose product is shippable of the product's weight times the
requested quantity; items filtered out contribute nothing. -/
theorem getTotalWeight_spec (s : Store) (cart : Cart) :
    Cart.getTotalWeight s cart =
      ((cart.items.filter (fun it => (s it.productId).isShippable)).map
        (fun it => (s it.productId).getWeight * it.quantity)).sum := by
  rw [getTotalWeight_eq_sum]
  rfl

/-- C7: across a whole `checkout` call — the only operation that writes
product stock in the source; `add`, the derived cart queries, `pay`, `ship`
and the receipt printing never assign `product.quantity` — every product's
quantity-on-hand can only decrease (given the nonnegative requested
quantities of the data model), and a nonnegative stock never goes below
zero: `reduceQuantity`'s guard fails the operation first. -/
theorem checkout_stock_invariant (today : Int) (c : Customer) (cart : Cart) (s : Store)
    (pid : Nat)
    (hq : ∀ it ∈ cart.items, 0 ≤ it.quantity)
    (hpid : 0 ≤ (s pid).quantity) :
    ((checkout today c cart s).store pid).quantity ≤ (s pid).quantity ∧
    0 ≤ ((checkout today c cart s).store pid).quantity := by
  rw [checkout_store_eq]
  exact ⟨processItems_quantity_le today cart.items s pid hq,
    processItems_quantity_nonneg today cart.items s pid hpid⟩

/-- Witness for C7 on a concrete cart that drains the TV stock to 1. -/
theorem checkout_stock_invariant_witness :
    (∀ it ∈ (Cart.mk [⟨2, 2⟩, ⟨0, 1⟩]).items, (0 : Int) ≤ it.quantity) ∧
    (0 : Int) ≤ (demoStore 2).quantity ∧
    (((checkout 10 ⟨"Ali", 1000⟩ ⟨[⟨2, 2⟩, ⟨0, 1⟩]⟩ demoStore).store 2).quantity ≤
        (demoStore 2).quantity ∧
      0 ≤ ((checkout 10 ⟨"Ali", 1000⟩ ⟨[⟨2, 2⟩, ⟨0, 1⟩]⟩ demoStore).store 2).quantity) :=
  ⟨by decide, by decide,
    checkout_stock_invariant 10 ⟨"Ali", 1000⟩ ⟨[⟨2, 2⟩, ⟨0, 1⟩]⟩ demoStore 2
      (by decide) (by decide)⟩

/-- C6: `Cart.add` fails with `InsufficientStock` exactly when the requested
quantity exceeds the product's quantity-on-hand at add time, and on success
appends one new `CartItem` (the store — hence the product's stock — is never
written by `add`).  Because stock is only decremented at checkout, two adds
of the same product (TV, stock 3, quantity 2 each) both succeed, yet the
subsequent checkout throws `OutOfStock`. -/
theorem cart_add_spec (s : Store) (cart : Cart) (pid : Nat) (q : Int) :
    (Cart.add s cart pid q = Except.error (Err.insufficientStock (s pid).name) ↔
      (s pid).quantity < q) ∧
    (q ≤ (s pid).quantity →
      Cart.add s cart pid q = Except.ok ⟨cart.items ++ [⟨pid, q⟩]⟩) ∧
    (Cart.add demoStore ⟨[]⟩ 2 2 = Except.ok ⟨[⟨2, 2⟩]⟩ ∧
      Cart.add demoStore ⟨[⟨2, 2⟩]⟩ 2 2 = Except.ok ⟨[⟨2, 2⟩, ⟨2, 2⟩]⟩ ∧
      (checkout 10 ⟨"Ali", 1000⟩ ⟨[⟨2, 2⟩, ⟨2, 2⟩]⟩ demoStore).error =
        some (Err.outOfStock "TV")) := by
  refine ⟨?_, ?_, by rfl, by rfl, by decide⟩
  · by_cases h : (s pid).quantity < q
    · simp [Cart.add, h]
    · simp [Cart.add, h]
  · intro hle
    simp [Cart.add, not_lt.mpr hle]

/-- Witness for C6 at a concrete store, cart and quantity. -/
theorem cart_add_spec_witness :
    (1 : Int) ≤ (demoStore 0).quantity ∧
    Cart.add demoStore ⟨[⟨2, 2⟩]⟩ 0 1 = Except.ok ⟨[⟨2, 2⟩, ⟨0, 1⟩]⟩ ∧
    (Cart.add demoStore ⟨[]⟩ 4 99 =
        Except.error (Err.insufficientStock (demoStore 4).name) ↔
      (demoStore 4).quantity < 99) :=
  ⟨by decide, (cart_add_spec demoStore ⟨[⟨2, 2⟩]⟩ 0 1).2.1 (by decide),
    (cart_add_spec demoStore ⟨[]⟩ 4 99).1⟩

/-- C3: on a nonempty cart that passes the expiry and stock steps, checkout
charges `subtotal + shipping fee`, the fee being exactly 30 when the total
shippable weight is positive and 0 otherwise — all computable from the
pre-checkout store, since the stock loop touches only quantities — and this
total is the amount handed to `pay`: payment succeeds (debiting exactly the
total, as the receipt lines record) or fails with `InsufficientBalance`
carrying that total as the required amount. -/
theorem checkout_total_spec (today : Int) (c : Customer) (cart : Cart) (s : Store)
    (hne : cart.items ≠ [])
    (hok : (processItems today s cart.items).2 = none) :
    (c.balance < checkoutTotal s cart →
      (checkout today c cart s).error =
        some (Err.insufficientBalance (checkoutTotal s cart) c.balance) ∧
      (checkout today c cart s).customer = c) ∧
    (checkoutTotal s cart ≤ c.balance →
      (checkout today c cart s).error = none ∧
      (checkout today c cart s).customer = ⟨c.name, c.balance - checkoutTotal s cart⟩ ∧
      OutLine.subtotalLine (Cart.getSubtotal s cart) ∈ (checkout today c cart s).output ∧
      OutLine.shippingLine (if Cart.getTotalWeight s cart > 0 then 30 else 0) ∈
        (checkout today c cart s).output ∧
      OutLine.amountLine (checkoutTotal s cart) ∈ (checkout today c cart s).output) := by
  rcases hps : processItems today s cart.items with ⟨s2, err⟩
  rw [hps] at hok
  have herr : err = none := hok
  subst herr
  have hprice : ∀ pid, (s2 pid).price = (s pid).price := by
    intro pid
    have h := (processItems_preserves today cart.items s pid).2.1
    rwa [hps] at h
  have hkind : ∀ pid, (s2 pid).kind = (s pid).kind := by
    intro pid
    have h := (processItems_preserves today cart.items s pid).2.2
    rwa [hps] at h
  have hsub : Cart.getSubtotal s2 cart = Cart.getSubtotal s cart :=
    getSubtotal_congr s2 s cart hprice
  have hw : Cart.getTotalWeight s2 cart = Cart.getTotalWeight s cart :=
    getTotalWeight_congr s2 s cart hkind
  have hT : Cart.getSubtotal s2 cart + (if Cart.getTotalWeight s2 cart > 0 then 30 else 0) =
      checkoutTotal s cart := by
    unfold checkoutTotal
    rw [hsub, hw]
  have hck := checkout_success_eq today c cart s s2 hne hps
  constructor
  · intro hbal
    have hpay : Customer.pay c (Cart.getSubtotal s2 cart +
        (if Cart.getTotalWeight s2 cart > 0 then 30 else 0)) =
        Except.error (Err.insufficientBalance (checkoutTotal s cart) c.balance) := by
      unfold Customer.pay
      rw [hT, if_pos hbal]
    rw [hck, hpay]
    exact ⟨rfl, rfl⟩
  · intro hbal
    have hpay : Customer.pay c (Cart.getSubtotal s2 cart +
        (if Cart.getTotalWeight s2 cart > 0 then 30 else 0)) =
        Except.ok ⟨c.name, c.balance - checkoutTotal s cart⟩ := by
      unfold Customer.pay
      rw [hT, if_neg (not_lt.mpr hbal)]
    rw [hck, hpay]
    refine ⟨rfl, rfl, ?_, ?_, ?_⟩
    · apply List.mem_append_right
      simp [receiptOutput, hsub]
    · apply List.mem_append_right
      simp [receiptOutput, hw]
    · apply List.mem_append_right
      simp [receiptOutput, hT]

/-- Witness for C3: the demo-style cart (cheese ×2, eggs ×1, scratch card ×1)
with a customer who can afford the 430 total. -/
theorem checkout_total_spec_witness :
    (Cart.mk [⟨0, 2⟩, ⟨3, 1⟩, ⟨4, 1⟩]).items ≠ [] ∧
    (processItems 10 demoStore (Cart.mk [⟨0, 2⟩, ⟨3, 1⟩, ⟨4, 1⟩]).items).2 = none ∧
    checkoutTotal demoStore ⟨[⟨0, 2⟩, ⟨3, 1⟩, ⟨4, 1⟩]⟩ ≤ (1000 : Int) ∧
    ((checkout 10 ⟨"Ali", 1000⟩ ⟨[⟨0, 2⟩, ⟨3, 1⟩, ⟨4, 1⟩]⟩ demoStore).error = none ∧
      (checkout 10 ⟨"Ali", 1000⟩ ⟨[⟨0, 2⟩, ⟨3, 1⟩, ⟨4, 1⟩]⟩ demoStore).customer =
        ⟨"Ali", 1000 - checkoutTotal demoStore ⟨[⟨0, 2⟩, ⟨3, 1⟩, ⟨4, 1⟩]⟩⟩ ∧
      OutLine.subtotalLine (Cart.getSubtotal demoStore ⟨[⟨0, 2⟩, ⟨3, 1⟩, ⟨4, 1⟩]⟩) ∈
        (checkout 10 ⟨"Ali", 1000⟩ ⟨[⟨0, 2⟩, ⟨3, 1⟩, ⟨4, 1⟩]⟩ demoStore).output ∧
      OutLine.shippingLine
          (if Cart.getTotalWeight demoStore ⟨[⟨0, 2⟩, ⟨3, 1⟩, ⟨4, 1⟩]⟩ > 0 then 30 else 0) ∈
        (checkout 10 ⟨"Ali", 1000⟩ ⟨[⟨0, 2⟩, ⟨3, 1⟩, ⟨4, 1⟩]⟩ demoStore).output ∧
      OutLine.amountLine (checkoutTotal demoStore ⟨[⟨0, 2⟩, ⟨3, 1⟩, ⟨4, 1⟩]⟩) ∈
        (checkout 10 ⟨"Ali", 1000⟩ ⟨[⟨0, 2⟩, ⟨3, 1⟩, ⟨4, 1⟩]⟩ demoStore).output) :=
  ⟨by decide, by decide, by decide,
    (checkout_total_spec 10 ⟨"Ali", 1000⟩ ⟨[⟨0, 2⟩, ⟨3, 1⟩, ⟨4, 1⟩]⟩ demoStore
      (by decide) (by decide)).2 (by decide)⟩

/-- C10: on a successful checkout, the shipment block is emitted iff the
cart has at least one shippable item (the guard is on the number of
shippable items, not their weight), while the charged fee follows the
weight: balance decreases by `subtotal + (30 if weight > 0 else 0)`.
A cart whose shippable items all weigh zero (e.g. a `PerishableProduct`
with the constructor's default weight 0) therefore has total weight 0 —
fee 0 — yet still triggers the shipment report. -/
theorem checkout_shipment_fee_spec (today : Int) (c : Customer) (cart : Cart) (s : Store)
    (hne : cart.items ≠ [])
    (hok : (processItems today s cart.items).2 = none)
    (hbal : checkoutTotal s cart ≤ c.balance) :
    (checkout today c cart s).customer =
      ⟨c.name, c.balance - (Cart.getSubtotal s cart +
        (if Cart.getTotalWeight s cart > 0 then 30 else 0))⟩ ∧
    (OutLine.shipmentHeader ∈ (checkout today c cart s).output ↔
      Cart.getShippableItems s cart ≠ []) ∧
    ((∀ it ∈ cart.items, (s it.productId).isShippable = true →
        (s it.productId).getWeight = 0) →
      Cart.getTotalWeight s cart = 0) := by
  rcases hps : processItems today s cart.items with ⟨s2, err⟩
  rw [hps] at hok
  have herr : err = none := hok
  subst herr
  have hprice : ∀ pid, (s2 pid).price = (s pid).price := by
    intro pid
    have h := (processItems_preserves today cart.items s pid).2.1
    rwa [hps] at h
  have hkind : ∀ pid, (s2 pid).kind = (s pid).kind := by
    intro pid
    have h := (processItems_preserves today cart.items s pid).2.2
    rwa [hps] at h
  have hsub : Cart.getSubtotal s2 cart = Cart.getSubtotal s cart :=
    getSubtotal_congr s2 s cart hprice
  have hw : Cart.getTotalWeight s2 cart = Cart.getTotalWeight s cart :=
    getTotalWeight_congr s2 s cart hkind
  have hship : Cart.getShippableItems s2 cart = Cart.getShippableItems s cart :=
    getShippableItems_congr s2 s cart hkind
  have hT : Cart.getSubtotal s2 cart + (if Cart.getTotalWeight s2 cart > 0 then 30 else 0) =
      checkoutTotal s cart := by
    unfold checkoutTotal
    rw [hsub, hw]
  have hck := checkout_success_eq today c cart s s2 hne hps
  have hpay : Customer.pay c (Cart.getSubtotal s2 cart +
      (if Cart.getTotalWeight s2 cart > 0 then 30 else 0)) =
      Except.ok ⟨c.name, c.balance - checkoutTotal s cart⟩ := by
    unfold Customer.pay
    rw [hT, if_neg (not_lt.mpr hbal)]
  rw [hck, hpay]
  refine ⟨rfl, ?_, ?_⟩
  · dsimp only
    rw [hship]
    by_cases hsp : Cart.getShippableItems s cart = []
    · simp [hsp, receiptOutput]
    · have hlen : 0 < (Cart.getShippableItems s cart).length := List.length_pos.mpr hsp
      simp [hlen, ShippingService.ship, hsp]
  · intro hzero
    rw [getTotalWeight_eq_sum]
    apply List.sum_eq_zero
    intro x hx
    simp only [List.mem_map] at hx
    obtain ⟨it, hitf, rfl⟩ := hx
    have hitmem : it ∈ cart.items := List.mem_of_mem_filter hitf
    have hitship : CartItem.isShippable s it = true := List.of_mem_filter hitf
    simp [CartItem.getWeight, hzero it hitmem hitship]

/-- Witness for C10: a cart holding only zero-weight perishable eggs — the
fee is 0 but the shipment block still appears. -/
theorem checkout_shipment_fee_spec_witness :
    (Cart.mk [⟨3, 2⟩]).items ≠ [] ∧
    (processItems 10 demoStore (Cart.mk [⟨3, 2⟩]).items).2 = none ∧
    checkoutTotal demoStore ⟨[⟨3, 2⟩]⟩ ≤ (1000 : Int) ∧
    Cart.getTotalWeight demoStore ⟨[⟨3, 2⟩]⟩ = 0 ∧
    Cart.getShippableItems demoStore ⟨[⟨3, 2⟩]⟩ ≠ [] ∧
    ((checkout 10 ⟨"Ali", 1000⟩ ⟨[⟨3, 2⟩]⟩ demoStore).customer =
      ⟨"Ali", 1000 - (Cart.getSubtotal demoStore ⟨[⟨3, 2⟩]⟩ +
        (if Cart.getTotalWeight demoStore ⟨[⟨3, 2⟩]⟩ > 0 then 30 else 0))⟩ ∧
    (OutLine.shipmentHeader ∈ (checkout 10 ⟨"Ali", 1000⟩ ⟨[⟨3, 2⟩]⟩ demoStore).output ↔
      Cart.getShippableItems demoStore ⟨[⟨3, 2⟩]⟩ ≠ []) ∧
    ((∀ it ∈ (Cart.mk [⟨3, 2⟩]).items, (demoStore it.productId).isShippable = true →
        (demoStore it.productId).getWeight = 0) →
      Cart.getTotalWeight demoStore ⟨[⟨3, 2⟩]⟩ = 0)) :=
  ⟨by decide, by decide, by decide, by decide, by decide,
    checkout_shipment_fee_spec 10 ⟨"Ali", 1000⟩ ⟨[⟨3, 2⟩]⟩ demoStore
      (by decide) (by decide) (by decide)⟩

/-- C2: on a nonempty cart of pairwise distinct products, none expired and
all with sufficient stock, a total above the customer's balance makes
checkout fail with `InsufficientBalance` only after every item's stock has
been decremented; those decrements stay applied, the balance is unchanged,
and nothing is printed. -/
theorem checkout_insufficient_balance (today : Int) (c : Customer) (cart : Cart) (s : Store)
    (hne : cart.items ≠ [])
    (hnodup : (cart.items.map CartItem.productId).Nodup)
    (hitems : ∀ it ∈ cart.items, (s it.productId).isExpired today = false ∧
      it.quantity ≤ (s it.productId).quantity)
    (hbal : c.balance < checkoutTotal s cart) :
    (checkout today c cart s).error =
      some (Err.insufficientBalance (checkoutTotal s cart) c.balance) ∧
    (∀ it ∈ cart.items, ((checkout today c cart s).store it.productId).quantity =
      (s it.productId).quantity - it.quantity) ∧
    (checkout today c cart s).customer = c ∧
    (checkout today c cart s).output = [] := by
  obtain ⟨h1, h2, h3⟩ := processItems_ok today cart.items s hnodup hitems
  rcases hps : processItems today s cart.items with ⟨s2, err⟩
  rw [hps] at h1 h2 h3
  have herr : err = none := h1
  subst herr
  have hprice : ∀ pid, (s2 pid).price = (s pid).price := by
    intro pid
    have h := (processItems_preserves today cart.items s pid).2.1
    rwa [hps] at h
  have hkind : ∀ pid, (s2 pid).kind = (s pid).kind := by
    intro pid
    have h := (processItems_preserves today cart.items s pid).2.2
    rwa [hps] at h
  have hT : Cart.getSubtotal s2 cart + (if Cart.getTotalWeight s2 cart > 0 then 30 else 0) =
      checkoutTotal s cart := by
    unfold checkoutTotal
    rw [getSubtotal_congr s2 s cart hprice, getTotalWeight_congr s2 s cart hkind]
  have hck := checkout_success_eq today c cart s s2 hne hps
  have hpay : Customer.pay c (Cart.getSubtotal s2 cart +
      (if Cart.getTotalWeight s2 cart > 0 then 30 else 0)) =
      Except.error (Err.insufficientBalance (checkoutTotal s cart) c.balance) := by
    unfold Customer.pay
    rw [hT, if_pos hbal]
  rw [hck, hpay]
  exact ⟨rfl, fun it hit => h2 it hit, rfl, rfl⟩

/-- Witness for C2: cheese ×2 and a TV, total 430, against a balance of 100. -/
theorem checkout_insufficient_balance_witness :
    (Cart.mk [⟨0, 2⟩, ⟨2, 1⟩]).items ≠ [] ∧
    ((Cart.mk [⟨0, 2⟩, ⟨2, 1⟩]).items.map CartItem.productId).Nodup ∧
    (∀ it ∈ (Cart.mk [⟨0, 2⟩, ⟨2, 1⟩]).items,
      (demoStore it.productId).isExpired 10 = false ∧
      it.quantity ≤ (demoStore it.productId).quantity) ∧
    (100 : Int) < checkoutTotal demoStore ⟨[⟨0, 2⟩, ⟨2, 1⟩]⟩ ∧
    ((checkout 10 ⟨"Ali", 100⟩ ⟨[⟨0, 2⟩, ⟨2, 1⟩]⟩ demoStore).error =
      some (Err.insufficientBalance (checkoutTotal demoStore ⟨[⟨0, 2⟩, ⟨2, 1⟩]⟩) 100) ∧
    (∀ it ∈ (Cart.mk [⟨0, 2⟩, ⟨2, 1⟩]).items,
      ((checkout 10 ⟨"Ali", 100⟩ ⟨[⟨0, 2⟩, ⟨2, 1⟩]⟩ demoStore).store it.productId).quantity =
        (demoStore it.productId).quantity - it.quantity) ∧
    (checkout 10 ⟨"Ali", 100⟩ ⟨[⟨0, 2⟩, ⟨2, 1⟩]⟩ demoStore).customer = ⟨"Ali", 100⟩ ∧
    (checkout 10 ⟨"Ali", 100⟩ ⟨[⟨0, 2⟩, ⟨2, 1⟩]⟩ demoStore).output = []) :=
  ⟨by decide, by decide, by decide, by decide,
    checkout_insufficient_balance 10 ⟨"Ali", 100⟩ ⟨[⟨0, 2⟩, ⟨2, 1⟩]⟩ demoStore
      (by decide) (by decide) (by decide) (by decide)⟩

/-- C1: items are processed in cart order; if item `k` is the first expired
one and every earlier item (of a pairwise distinct cart) had sufficient
stock, checkout throws `ExpiredProduct` before touching item `k`'s stock:
items before `k` keep their decrement, item `k`'s product and every later
item's product are untouched, the balance is unchanged and nothing is
printed. -/
theorem checkout_first_expired (today : Int) (c : Customer) (s : Store)
    (pre : List CartItem) (bad : CartItem) (post : List CartItem) (cart : Cart)
    (hc : cart.items = pre ++ bad :: post)
    (hnodup : (cart.items.map CartItem.productId).Nodup)
    (hpre : ∀ it ∈ pre, (s it.productId).isExpired today = false ∧
      it.quantity ≤ (s it.productId).quantity)
    (hbad : (s bad.productId).isExpired today = true) :
    (checkout today c cart s).error = some (Err.expiredProduct (s bad.productId).name) ∧
    (∀ it ∈ pre, ((checkout today c cart s).store it.productId).quantity =
      (s it.productId).quantity - it.quantity) ∧
    (checkout today c cart s).store bad.productId = s bad.productId ∧
    (∀ it ∈ post, (checkout today c cart s).store it.productId = s it.productId) ∧
    (checkout today c cart s).customer = c ∧
    (checkout today c cart s).output = [] := by
  rw [hc, List.map_append] at hnodup
  obtain ⟨hn1, hn2, hdisj⟩ := List.nodup_append.mp hnodup
  obtain ⟨p1, p2, p3⟩ := processItems_ok today pre s hn1 hpre
  rcases hpp : processItems today s pre with ⟨s2, err⟩
  rw [hpp] at p1 p2 p3
  have herr : err = none := p1
  subst herr
  have happ := processItems_append_ok today pre (bad :: post) s s2 hpp
  have hkind2 : (s2 bad.productId).kind = (s bad.productId).kind := by
    have h := (processItems_preserves today pre s bad.productId).2.2
    rwa [hpp] at h
  have hname2 : (s2 bad.productId).name = (s bad.productId).name := by
    have h := (processItems_preserves today pre s bad.productId).1
    rwa [hpp] at h
  have hexp2 : (s2 bad.productId).isExpired today = true := by
    rw [isExpired_congr _ _ today hkind2]
    exact hbad
  have hstep : processItems today s2 (bad :: post) =
      (s2, some (Err.expiredProduct (s2 bad.productId).name)) := by
    simp [processItems, hexp2]
  have hfull : processItems today s cart.items =
      (s2, some (Err.expiredProduct (s bad.productId).name)) := by
    rw [hc, happ, hstep, hname2]
  have hck := checkout_err_eq today c cart s s2
    (Err.expiredProduct (s bad.productId).name) (by rw [hc]; simp) hfull
  rw [hck]
  refine ⟨rfl, fun it hit => p2 it hit, ?_, ?_, rfl, rfl⟩
  · exact p3 bad.productId
      (fun h => hdisj h (List.mem_map_of_mem CartItem.productId (List.mem_cons_self bad post)))
  · intro it hit
    exact p3 it.productId
      (fun h => hdisj h (List.mem_map_of_mem CartItem.productId (List.mem_cons_of_mem bad hit)))

/-- Witness for C1: fresh cheese, then expired biscuits, then a TV; only
the cheese stock is reduced. -/
theorem checkout_first_expired_witness :
    (Cart.mk [⟨0, 2⟩, ⟨1, 1⟩, ⟨2, 1⟩]).items = [⟨0, 2⟩] ++ (⟨1, 1⟩ : CartItem) :: [⟨2, 1⟩] ∧
    ((Cart.mk [⟨0, 2⟩, ⟨1, 1⟩, ⟨2, 1⟩]).items.map CartItem.productId).Nodup ∧
    (∀ it ∈ [(⟨0, 2⟩ : CartItem)], (demoStore it.productId).isExpired 10 = false ∧
      it.quantity ≤ (demoStore it.productId).quantity) ∧
    (demoStore 1).isExpired 10 = true ∧
    ((checkout 10 ⟨"Ali", 1000⟩ ⟨[⟨0, 2⟩, ⟨1, 1⟩, ⟨2, 1⟩]⟩ demoStore).error =
      some (Err.expiredProduct (demoStore 1).name) ∧
    (∀ it ∈ [(⟨0, 2⟩ : CartItem)],
      ((checkout 10 ⟨"Ali", 1000⟩ ⟨[⟨0, 2⟩, ⟨1, 1⟩, ⟨2, 1⟩]⟩ demoStore).store
          it.productId).quantity =
        (demoStore it.productId).quantity - it.quantity) ∧
    (checkout 10 ⟨"Ali", 1000⟩ ⟨[⟨0, 2⟩, ⟨1, 1⟩, ⟨2, 1⟩]⟩ demoStore).store 1 = demoStore 1 ∧
    (∀ it ∈ [(⟨2, 1⟩ : CartItem)],
      (checkout 10 ⟨"Ali", 1000⟩ ⟨[⟨0, 2⟩, ⟨1, 1⟩, ⟨2, 1⟩]⟩ demoStore).store it.productId =
        demoStore it.productId) ∧
    (checkout 10 ⟨"Ali", 1000⟩ ⟨[⟨0, 2⟩, ⟨1, 1⟩, ⟨2, 1⟩]⟩ demoStore).customer = ⟨"Ali", 1000⟩ ∧
    (checkout 10 ⟨"Ali", 1000⟩ ⟨[⟨0, 2⟩, ⟨1, 1⟩, ⟨2, 1⟩]⟩ demoStore).output = []) :=
  ⟨by decide, by decide, by decide, by decide,
    checkout_first_expired 10 ⟨"Ali", 1000⟩ demoStore [⟨0, 2⟩] ⟨1, 1⟩ [⟨2, 1⟩]
      ⟨[⟨0, 2⟩, ⟨1, 1⟩, ⟨2, 1⟩]⟩ (by decide) (by decide) (by decide) (by decide)⟩
